import Mathlib

/-!
Shallow embedding of the hanabi rule engine (src/hanabi.rs) and its
command layer (src/main.rs).

Conventions of the embedding:
* Rust `HashMap` values are modelled as association lists (`List (key × value)`)
  with first-match lookup; `entry(k).and_modify(f).or_insert(d)` becomes
  `insertWithA`.  All reachable maps have distinct keys, so first-match lookup
  agrees with `HashMap` semantics, and `values()` is the list of second
  components.
* Rust `usize` is modelled as `Nat`; the one subtraction that can underflow
  (`lives -= 1` in `Game::play`) is modelled with wrapping semantics mod 2^64
  (`usizeSub1`), which is the value a release build produces (a debug build
  panics at the same input).
* Fallible operations (`Option::unwrap`, `Vec::pop().unwrap()`,
  `VecDeque::remove(i).unwrap()`) are modelled as `Option`-returning
  functions where `none` marks the panic.
* `Game::end_game` prints its reason; we record the printed reasons in a
  `reasons : List String` field next to the `ended` flag so that "ends the
  game with reason r" is statable.
-/

/-- First-match lookup in an association list; models `HashMap::get`. -/
def lookupA {α β : Type} [DecidableEq α] : List (α × β) → α → Option β
  | [], _ => none
  | (k, v) :: rest, key => if k = key then some v else lookupA rest key

/-- Models `HashMap::entry(key).and_modify(f).or_insert(d)`: updates the first
entry with the given key by `f`, or appends `(key, d)` when absent. -/
def insertWithA {α β : Type} [DecidableEq α] : List (α × β) → α → (β → β) → β → List (α × β)
  | [], key, _, d => [(key, d)]
  | (k, v) :: rest, key, f, d =>
      if k = key then (k, f v) :: rest else (k, v) :: insertWithA rest key f d

/-- Models `VecDeque::remove(i)`: the element at index `i` together with the
remaining sequence, or `none` when `i` is out of range. -/
def removeAt {α : Type} : List α → Nat → Option (α × List α)
  | [], _ => none
  | x :: xs, 0 => some (x, xs)
  | x :: xs, n + 1 =>
      match removeAt xs n with
      | none => none
      | some (c, rest) => some (c, x :: rest)

/-- `Secret<T>` from src/hanabi.rs: a wrapped value plus a `known` flag. -/
structure Secret (T : Type) where
  value : T
  known : Bool
deriving DecidableEq

/-- `Secret::new`: construct concealed. -/
def Secret.new {T : Type} (v : T) : Secret T := ⟨v, false⟩

/-- `Secret::reveal`: set the `known` flag. -/
def Secret.reveal {T : Type} (s : Secret T) : Secret T := { s with known := true }

/-- `Secret::get`: the value when known, else `None`. -/
def Secret.get {T : Type} (s : Secret T) : Option T :=
  if s.known then some s.value else none

/-- `Secret::reveal_if`: reveal exactly when the candidate equals the value. -/
def Secret.reveal_if {T : Type} [DecidableEq T] (s : Secret T) (v : T) : Secret T :=
  if s.value = v then s.reveal else s

/-- `Secret::peek`: the value unconditionally. -/
def Secret.peek {T : Type} (s : Secret T) : T := s.value

/-- The five colors of src/hanabi.rs. -/
inductive Color
  | Red
  | Blue
  | Green
  | White
  | Yellow
deriving DecidableEq

/-- `Card`: a secret number and a secret color. -/
structure Card where
  number : Secret Nat
  color : Secret Color
deriving DecidableEq

/-- `Card::new`. -/
def Card.new (c : Color) (n : Nat) : Card := ⟨Secret.new n, Secret.new c⟩

/-- `Card::hint_color`: forwards to `reveal_if` on the color. -/
def Card.hint_color (card : Card) (v : Color) : Card :=
  { card with color := card.color.reveal_if v }

/-- `Card::hint_number`: forwards to `reveal_if` on the number. -/
def Card.hint_number (card : Card) (v : Nat) : Card :=
  { card with number := card.number.reveal_if v }

/-- The per-number copy count from `Deck::new`'s `match number` table. -/
def copiesOf (n : Nat) : Nat :=
  match n with
  | 1 => 3
  | 2 => 2
  | 3 => 2
  | 4 => 2
  | 5 => 1
  | _ => 0

/-- `Deck`: the remaining cards (a `Vec`, popped from the back) plus the
`depleted` flag. -/
structure Deck where
  cards : List Card
  depleted : Bool
deriving DecidableEq

/-- The color list used by `Deck::new` and `init_discard_limits`. -/
def allColors : List Color := [Color.Red, Color.Blue, Color.Green, Color.White, Color.Yellow]

/-- The 50-card multiset pushed by `Deck::new` before shuffling, in push
order: for each color, for each number 1..5, `copiesOf` copies. -/
def Deck.standardCards : List Card :=
  allColors.flatMap fun c => [1, 2, 3, 4, 5].flatMap fun n => List.replicate (copiesOf n) (Card.new c n)

/-- `Deck::new` shuffles `standardCards` with `thread_rng`; the embedding
takes the post-shuffle order as a parameter (all the properties proved below
depend only on the length of the list, which shuffling preserves). -/
def Deck.fromCards (cs : List Card) : Deck := ⟨cs, false⟩

/-- `Deck::get_card`: sets `depleted` when the pre-draw length is 1, then
`pop().unwrap()` from the back of the `Vec`; `none` models the panic on an
empty deck. -/
def Deck.get_card (d : Deck) : Option (Card × Deck) :=
  let dep := if d.cards.length = 1 then true else d.depleted
  match d.cards.getLast? with
  | none => none
  | some c => some (c, ⟨d.cards.dropLast, dep⟩)

/-- `Deck::is_empty`: returns the `depleted` flag. -/
def Deck.is_empty (d : Deck) : Bool := d.depleted

/-- Draw `n` cards in sequence, discarding them; `none` if any draw panics. -/
def drawN : Deck → Nat → Option Deck
  | d, 0 => some d
  | d, n + 1 =>
      match d.get_card with
      | none => none
      | some (_, d') => drawN d' n

/-- The inner map `{1:3, 2:2, 3:2, 4:2, 5:1}` that `init_discard_limits`
clones for every color. -/
def defaultLimits : List (Nat × Nat) := [(1, 3), (2, 2), (3, 2), (4, 2), (5, 1)]

/-- `discard_limits[color][number]` for any color: `init_discard_limits`
inserts the same inner map for all five colors and the field is never
mutated, so the limit depends only on the number.  Rust panics on a key
outside 1..5; the `getD 0` default is never reached for cards of the deck,
whose numbers are all in 1..5. -/
def discardLimit (n : Nat) : Nat := (lookupA defaultLimits n).getD 0

/-- `Game` from src/hanabi.rs.  The constant `discard_limits` field is
modelled by `discardLimit`; `reasons` records the messages printed by
`end_game` so end reasons are observable. -/
structure Game where
  deck : Deck
  hints : Nat
  max_hints : Nat
  lives : Nat
  played : List (Color × Nat)
  discarded : List (Color × List (Nat × Nat))
  perfection : Bool
  ended : Bool
  reasons : List String
deriving DecidableEq

/-- `Game::new` (the deck's post-shuffle order is a parameter). -/
def Game.new (cards : List Card) (perfection : Bool) : Game :=
  { deck := Deck.fromCards cards
    hints := 7
    max_hints := 7
    lives := 3
    played := []
    discarded := []
    perfection := perfection
    ended := false
    reasons := [] }

/-- `Game::end_game`: set `ended` and print (here: record) the reason. -/
def Game.end_game (g : Game) (reason : String) : Game :=
  { g with ended := true, reasons := g.reasons ++ [reason] }

/-- `played[color]` with the absent-means-0 convention used by
`check_dangerous` (`unwrap_or(&0)`). -/
def playedGetD (g : Game) (c : Color) : Nat := (lookupA g.played c).getD 0

/-- `discarded[color][number]`, defaulting to 0 when absent. -/
def discardedGetD (g : Game) (c : Color) (n : Nat) : Nat :=
  (lookupA ((lookupA g.discarded c).getD []) n).getD 0

/-- `Game::is_valid_play`. -/
def Game.is_valid_play (g : Game) (card : Card) : Bool :=
  match lookupA g.played card.color.peek with
  | none => card.number.peek == 1
  | some x => card.number.peek == x + 1

/-- Wrapping `usize` decrement (release-build semantics of `lives -= 1`;
a debug build panics on the same underflow).  For every representable
`usize` value (`n < 2^64`) this equals `(n + (2^64 - 1)) % 2^64`, the
two's-complement wrap — see `usizeSub1_mod_spec`. -/
def usizeSub1 (n : Nat) : Nat := if n = 0 then 18446744073709551615 else n - 1

/-- `Game::check_dangerous`. -/
def Game.check_dangerous (g : Game) (c : Color) (number count : Nat) : Bool :=
  if playedGetD g c > number then false
  else if count + 1 < discardLimit number then false
  else true

/-- `Game::drop_card`: increment `discarded[color][number]` (creating the
inner map when absent, as `or_default` does), then under perfection compare
the new count with the discard limit and possibly end the game. -/
def Game.drop_card (g : Game) (card : Card) : Game :=
  let color := card.color.peek
  let number := card.number.peek
  let g' := { g with
    discarded := insertWithA g.discarded color
      (fun inner => insertWithA inner number (fun k => k + 1) 1)
      (insertWithA [] number (fun k => k + 1) 1) }
  if g'.perfection && (discardedGetD g' color number == discardLimit number) then
    g'.end_game "Hit discard limit with perfection enabled."
  else g'

/-- `Game::play`. -/
def Game.play (g : Game) (card : Card) : Game × Bool :=
  let color := card.color.peek
  if g.is_valid_play card then
    let g' := { g with played := insertWithA g.played color (fun n => n + 1) 1 }
    let g'' :=
      if (g'.played.map Prod.snd).all (fun x => x == 5) then
        g'.end_game "All colors completed"
      else g'
    (g'', true)
  else
    let g' := { g with lives := usizeSub1 g.lives }
    let g'' := if g'.lives == 0 then g'.end_game "Ran out of lives" else g'
    (g''.drop_card card, false)

/-- `Game::discard`: refund one hint token when below the cap, then
`drop_card`. -/
def Game.discard (g : Game) (card : Card) : Game :=
  let g' := if g.hints < g.max_hints then { g with hints := g.hints + 1 } else g
  g'.drop_card card

/-- `Player`: the hand (a `VecDeque`, pushed at the back) and the fixed
target hand size. -/
structure Player where
  hand : List Card
  hand_size : Nat
deriving DecidableEq

/-- `Player::draw`: `game.deck.get_card()` then `push_back`; `none` models
the panic when the deck is empty. -/
def Player.draw (p : Player) (g : Game) : Option (Player × Game) :=
  match g.deck.get_card with
  | none => none
  | some (c, d) => some ({ p with hand := p.hand ++ [c] }, { g with deck := d })

/-- `Player::play`: `game.play(self.hand.remove(i).unwrap()); self.draw(game)`.
The draw is unconditional; `none` models a panic (out-of-range index, or an
empty deck at the draw). -/
def Player.play (p : Player) (i : Nat) (g : Game) : Option (Player × Game) :=
  match removeAt p.hand i with
  | none => none
  | some (card, rest) => Player.draw { p with hand := rest } (Game.play g card).1

/-- `Player::discard`: like `Player::play` but through `Game::discard`. -/
def Player.discard (p : Player) (i : Nat) (g : Game) : Option (Player × Game) :=
  match removeAt p.hand i with
  | none => none
  | some (card, rest) => Player.draw { p with hand := rest } (Game.discard g card)

/-- `Player::get_color_hint`: `hint_color` on every card of the hand. -/
def Player.get_color_hint (p : Player) (c : Color) : Player :=
  { p with hand := p.hand.map fun card => card.hint_color c }

/-- `Player::get_number_hint`: `hint_number` on every card of the hand. -/
def Player.get_number_hint (p : Player) (n : Nat) : Player :=
  { p with hand := p.hand.map fun card => card.hint_number n }

/-- The already-parsed hint value of the `h` command in src/main.rs (a parse
failure makes the command return `None` before touching any state, so it is
outside this type). -/
inductive HintValue
  | number (n : Nat)
  | color (c : Color)
deriving DecidableEq

/-- Dispatch of the hint value onto the target player, as in the `match` of
`hint` in src/main.rs. -/
def applyHintValue (p : Player) (v : HintValue) : Player :=
  match v with
  | .number n => p.get_number_hint n
  | .color c => p.get_color_hint c

/-- The `hint` command of src/main.rs: refused (`none`, no state touched)
when the token pool is 0 or the target player does not exist; otherwise the
hint is applied to the target hand and one token is consumed. -/
def hint (g : Game) (players : List (Nat × Player)) (target : Nat) (v : HintValue) :
    Option (Game × List (Nat × Player)) :=
  if g.hints == 0 then none
  else
    match lookupA players target with
    | none => none
    | some p =>
        some ({ g with hints := g.hints - 1 },
          insertWithA players target (fun _ => applyHintValue p v) (applyHintValue p v))

/-- Outcome of a `p`/`d` command: rejected (the command returned `None` and
the driver re-prompts), panicked (an `unwrap` failed inside the Player
operation), or completed with the new table state. -/
inductive CmdResult (σ : Type)
  | rejected
  | panicked
  | ok (s : σ)
deriving DecidableEq

/-- The `play` command of src/main.rs: reject when the current player is
unknown or `index > hand_size`, else run `Player::play`. -/
def play (g : Game) (players : List (Nat × Player)) (current index : Nat) :
    CmdResult (Game × List (Nat × Player)) :=
  match lookupA players current with
  | none => .rejected
  | some p =>
      if index > p.hand_size then .rejected
      else
        match Player.play p index g with
        | none => .panicked
        | some (p', g') => .ok (g', insertWithA players current (fun _ => p') p')

/-- The `discard` command of src/main.rs. -/
def discard (g : Game) (players : List (Nat × Player)) (current index : Nat) :
    CmdResult (Game × List (Nat × Player)) :=
  match lookupA players current with
  | none => .rejected
  | some p =>
      if index > p.hand_size then .rejected
      else
        match Player.discard p index g with
        | none => .panicked
        | some (p', g') => .ok (g', insertWithA players current (fun _ => p') p')

/-- The shared table state threaded through the driver loop of `main`. -/
structure TableState where
  game : Game
  players : List (Nat × Player)
deriving DecidableEq

/-- One accepted command of `parse_command`. -/
inductive Command
  | hintC (target : Nat) (v : HintValue)
  | playC (index : Nat)
  | discardC (index : Nat)
  | quitC
deriving DecidableEq

/-- Execute one accepted command for the current player, as the `match` in
`parse_command` does.  A rejected command makes `parse_command` re-prompt;
for these theorems commands are accepted, and a rejection is modelled as
leaving the state unchanged.  `none` models a panic. -/
def execCommand (st : TableState) (current : Nat) : Command → Option TableState
  | .quitC => some ⟨st.game.end_game "Quit by player", st.players⟩
  | .hintC t v =>
      match hint st.game st.players t v with
      | none => some st
      | some (g, ps) => some ⟨g, ps⟩
  | .playC i =>
      match play st.game st.players current i with
      | .rejected => some st
      | .panicked => none
      | .ok (g, ps) => some ⟨g, ps⟩
  | .discardC i =>
      match discard st.game st.players current i with
      | .rejected => some st
      | .panicked => none
      | .ok (g, ps) => some ⟨g, ps⟩

/-- The body of `main`'s `while !game.ended` loop: one round runs every
player of the range in order, with no check of `game.ended` between players
(the flag is consulted only between rounds). -/
def runRound : TableState → List (Nat × Command) → Option TableState
  | st, [] => some st
  | st, (i, c) :: rest =>
      match execCommand st i c with
      | none => none
      | some st' => runRound st' rest

/-- The claim's wording of `check_dangerous`, for comparison with the code:
the category's played rank (0 when absent) is strictly below the rank, and
one more discard reaches the limit. -/
def dangerousSpec (playedVal rank count : Nat) : Bool :=
  decide (playedVal < rank) && decide (discardLimit rank ≤ count + 1)

/-- A game whose red pile has been played up to 3 (reachable by playing red
1, 2, 3 from a new game); used to exercise `check_dangerous`. -/
def gPlayedRed3 : Game :=
  ((((Game.new [] false).play (Card.new Color.Red 1)).1.play (Card.new Color.Red 2)).1.play
    (Card.new Color.Red 3)).1

/-- A new game after playing red 1, 2, 3, 4 in order (all four plays valid). -/
def gPlayedRed4 : Game := (gPlayedRed3.play (Card.new Color.Red 4)).1

/-- A full five-card hand for exercising the command layer. -/
def fiveHand : List Card :=
  [Card.new Color.Red 1, Card.new Color.Red 2, Card.new Color.Blue 1,
    Card.new Color.Green 1, Card.new Color.White 1]

/-- Command-layer table: one player holding `fiveHand` with `hand_size` 5. -/
def fivePlayers : List (Nat × Player) := [(0, ⟨fiveHand, 5⟩)]

/-- A game with one card left in the deck, for the command layer. -/
def oneCardGame : Game := Game.new [Card.new Color.Yellow 1] false

/-- A two-player table for one driver round: player 1 holds a red 1 and the
deck holds one replacement card. -/
def demoRoundState : TableState :=
  ⟨Game.new [Card.new Color.Blue 2] false, [(0, ⟨[], 1⟩), (1, ⟨[Card.new Color.Red 1], 1⟩)]⟩

/-- A round in which player 0 quits (ending the game) and player 1 then
still discards. -/
def demoRoundCmds : List (Nat × Command) := [(0, Command.quitC), (1, Command.discardC 0)]

/-! ## Helper lemmas -/

theorem lookupA_insertWithA_self {α β : Type} [DecidableEq α] (m : List (α × β)) (key : α)
    (f : β → β) (d : β) :
    lookupA (insertWithA m key f d) key =
      some (match lookupA m key with | none => d | some v => f v) := by
  induction m with
  | nil => simp [lookupA, insertWithA]
  | cons hd tl ih =>
    obtain ⟨k, v⟩ := hd
    by_cases h : k = key
    · simp [lookupA, insertWithA, h]
    · simp [lookupA, insertWithA, h, ih]

@[simp] theorem end_game_deck (g : Game) (r : String) : (g.end_game r).deck = g.deck := rfl

@[simp] theorem end_game_hints (g : Game) (r : String) : (g.end_game r).hints = g.hints := rfl

@[simp] theorem end_game_lives (g : Game) (r : String) : (g.end_game r).lives = g.lives := rfl

@[simp] theorem end_game_played (g : Game) (r : String) : (g.end_game r).played = g.played := rfl

@[simp] theorem end_game_discarded (g : Game) (r : String) :
    (g.end_game r).discarded = g.discarded := rfl

@[simp] theorem end_game_ended (g : Game) (r : String) : (g.end_game r).ended = true := rfl

@[simp] theorem end_game_reasons (g : Game) (r : String) :
    (g.end_game r).reasons = g.reasons ++ [r] := rfl

theorem drop_card_discarded (g : Game) (card : Card) :
    (g.drop_card card).discarded = insertWithA g.discarded card.color.peek
      (fun inner => insertWithA inner card.number.peek (fun k => k + 1) 1)
      (insertWithA [] card.number.peek (fun k => k + 1) 1) := by
  simp only [Game.drop_card]
  split <;> simp [Game.end_game]

theorem drop_card_hints (g : Game) (card : Card) : (g.drop_card card).hints = g.hints := by
  simp only [Game.drop_card]
  split <;> simp [Game.end_game]

theorem drop_card_lives (g : Game) (card : Card) : (g.drop_card card).lives = g.lives := by
  simp only [Game.drop_card]
  split <;> simp [Game.end_game]

theorem discardedGetD_drop_card (g : Game) (card : Card) :
    discardedGetD (g.drop_card card) card.color.peek card.number.peek =
      discardedGetD g card.color.peek card.number.peek + 1 := by
  unfold discardedGetD
  rw [drop_card_discarded, lookupA_insertWithA_self]
  cases h : lookupA g.discarded card.color.peek with
  | none =>
    simp only [h, Option.getD_some, Option.getD_none]
    rw [lookupA_insertWithA_self]
    simp [lookupA]
  | some inner =>
    simp only [h, Option.getD_some]
    rw [lookupA_insertWithA_self]
    cases h2 : lookupA inner card.number.peek <;> simp [h2]

theorem play_snd (g : Game) (card : Card) : (g.play card).2 = g.is_valid_play card := by
  simp only [Game.play]
  split <;> simp_all

theorem play_success_played (g : Game) (card : Card) (h : g.is_valid_play card = true) :
    ((g.play card).1).played = insertWithA g.played card.color.peek (fun n => n + 1) 1 := by
  simp only [Game.play, h]
  split
  · split <;> simp [Game.end_game]
  · simp_all

theorem playedGetD_play_success (g : Game) (card : Card) (h : g.is_valid_play card = true) :
    playedGetD (g.play card).1 card.color.peek = playedGetD g card.color.peek + 1 := by
  unfold playedGetD
  rw [play_success_played g card h, lookupA_insertWithA_self]
  cases h2 : lookupA g.played card.color.peek <;> simp [h2]

theorem play_hints (g : Game) (card : Card) : ((g.play card).1).hints = g.hints := by
  simp only [Game.play]
  split
  · split <;> simp [Game.end_game]
  · split <;> simp [Game.end_game, drop_card_hints]

theorem usizeSub1_mod_spec (n : Nat) (h : n < 18446744073709551616) :
    usizeSub1 n = (n + 18446744073709551615) % 18446744073709551616 := by
  unfold usizeSub1
  split <;> omega

theorem usizeSub1_eq (n : Nat) (h1 : 1 ≤ n) : usizeSub1 n = n - 1 := by
  unfold usizeSub1
  split <;> omega

theorem drop_card_deck (g : Game) (card : Card) : (g.drop_card card).deck = g.deck := by
  simp only [Game.drop_card]
  split <;> simp [Game.end_game]

theorem play_deck (g : Game) (card : Card) : ((g.play card).1).deck = g.deck := by
  simp only [Game.play]
  split
  · split <;> simp [Game.end_game]
  · split <;> simp [Game.end_game, drop_card_deck]

theorem discard_deck (g : Game) (card : Card) : (g.discard card).deck = g.deck := by
  simp only [Game.discard]
  rw [drop_card_deck]
  split <;> rfl

theorem draw_none (p : Player) (g : Game) (h : g.deck.cards = []) : Player.draw p g = none := by
  simp [Player.draw, Deck.get_card, h]

theorem removeAt_isSome {α : Type} (l : List α) (i : Nat) (h : i < l.length) :
    ∃ c rest, removeAt l i = some (c, rest) := by
  induction l generalizing i with
  | nil => simp at h
  | cons x xs ih =>
    cases i with
    | zero => exact ⟨x, xs, rfl⟩
    | succ n =>
      obtain ⟨c, rest, hc⟩ := ih n (by simpa using h)
      exact ⟨c, x :: rest, by simp [removeAt, hc]⟩

theorem drop_card_ended_of (g : Game) (card : Card) (h : g.ended = true) :
    (g.drop_card card).ended = true := by
  simp only [Game.drop_card]
  split
  · rfl
  · exact h

theorem drop_card_reasons_mono (g : Game) (card : Card) (r : String) (h : r ∈ g.reasons) :
    r ∈ (g.drop_card card).reasons := by
  simp only [Game.drop_card]
  split
  · exact List.mem_append_left _ h
  · exact h

theorem discardedGetD_congr (g g' : Game) (c : Color) (n : Nat)
    (h : g'.discarded = g.discarded) : discardedGetD g' c n = discardedGetD g c n := by
  unfold discardedGetD
  rw [h]

theorem drawN_fresh (k : Nat) (cs : List Card) (dep : Bool) (hk : k ≤ cs.length) :
    ∃ d, drawN ⟨cs, dep⟩ k = some d ∧ d.cards.length = cs.length - k ∧
      (d.depleted = true ↔ (dep = true ∨ (1 ≤ cs.length ∧ cs.length ≤ k))) := by
  induction k generalizing cs dep with
  | zero =>
    refine ⟨⟨cs, dep⟩, rfl, by simp, ?_⟩
    constructor
    · exact Or.inl
    · rintro (h | ⟨h1, h2⟩)
      · exact h
      · omega
  | succ n ih =>
    have hne : cs ≠ [] := by
      intro hcs
      subst hcs
      simp at hk
    have hc : cs.getLast? = some (cs.getLast hne) := List.getLast?_eq_getLast_of_ne_nil hne
    have hlen : cs.dropLast.length = cs.length - 1 := by simp
    have hL : 1 ≤ cs.length := List.length_pos.mpr hne
    obtain ⟨d, hd, h1, h2⟩ :=
      ih cs.dropLast (if cs.length = 1 then true else dep) (by omega)
    refine ⟨d, ?_, ?_, ?_⟩
    · simp only [drawN, Deck.get_card, hc]
      exact hd
    · rw [h1, hlen]
      omega
    · rw [h2, hlen]
      by_cases hL1 : cs.length = 1
      · simp only [hL1, if_pos]
        constructor
        · intro _
          exact Or.inr ⟨by omega, by omega⟩
        · intro _
          exact Or.inl trivial
      · rw [if_neg hL1]
        constructor
        · rintro (h | ⟨a, b⟩)
          · exact Or.inl h
          · exact Or.inr ⟨by omega, by omega⟩
        · rintro (h | ⟨a, b⟩)
          · exact Or.inl h
          · exact Or.inr ⟨by omega, by omega⟩

theorem play_failure_lives (g : Game) (card : Card) (h : g.is_valid_play card = false) :
    ((g.play card).1).lives = usizeSub1 g.lives := by
  simp only [Game.play]
  split
  · simp_all
  · rw [drop_card_lives]
    split <;> simp [Game.end_game]

theorem drop_card_count_of (g gmid : Game) (card : Card)
    (hmid : gmid.discarded = g.discarded) :
    discardedGetD (gmid.drop_card card) card.color.peek card.number.peek =
      discardedGetD g card.color.peek card.number.peek + 1 := by
  rw [discardedGetD_drop_card, discardedGetD_congr g gmid _ _ hmid]

theorem play_failure_discarded_count (g : Game) (card : Card)
    (h : g.is_valid_play card = false) :
    discardedGetD (g.play card).1 card.color.peek card.number.peek =
      discardedGetD g card.color.peek card.number.peek + 1 := by
  simp only [Game.play]
  split
  · simp_all
  · generalize usizeSub1 g.lives = L
    apply drop_card_count_of
    split <;> simp [Game.end_game]

theorem play_failure_end (g : Game) (card : Card) (h : g.is_valid_play card = false)
    (h0 : usizeSub1 g.lives = 0) :
    ((g.play card).1).ended = true ∧ "Ran out of lives" ∈ ((g.play card).1).reasons := by
  simp only [Game.play]
  split
  · simp_all
  · rw [h0]
    constructor
    · apply drop_card_ended_of
      simp [Game.end_game]
    · apply drop_card_reasons_mono
      simp [Game.end_game]

theorem lookup2_insertWith (m : List (Color × List (Nat × Nat))) (c : Color) (n : Nat) :
    (lookupA ((lookupA (insertWithA m c
          (fun inner => insertWithA inner n (fun k => k + 1) 1)
          (insertWithA [] n (fun k => k + 1) 1)) c).getD []) n).getD 0 =
      (lookupA ((lookupA m c).getD []) n).getD 0 + 1 := by
  rw [lookupA_insertWithA_self]
  cases h : lookupA m c with
  | none =>
    simp only [h, Option.getD_some, Option.getD_none]
    rw [lookupA_insertWithA_self]
    simp [lookupA]
  | some inner =>
    simp only [h, Option.getD_some]
    rw [lookupA_insertWithA_self]
    cases h2 : lookupA inner n <;> simp [h2]

theorem drop_card_limit_end (g : Game) (card : Card) (hperf : g.perfection = true)
    (hlim : discardedGetD g card.color.peek card.number.peek + 1 =
      discardLimit card.number.peek) :
    (g.drop_card card).ended = true ∧
      "Hit discard limit with perfection enabled." ∈ (g.drop_card card).reasons := by
  unfold discardedGetD at hlim
  simp only [Game.drop_card]
  split
  · exact ⟨rfl, by simp [Game.end_game]⟩
  · exfalso
    next hcond =>
      apply hcond
      simp only [discardedGetD]
      rw [lookup2_insertWith, hlim]
      simp [hperf]

theorem discard_limit_end (g : Game) (card : Card) (hperf : g.perfection = true)
    (hlim : discardedGetD g card.color.peek card.number.peek + 1 =
      discardLimit card.number.peek) :
    (g.discard card).ended = true ∧
      "Hit discard limit with perfection enabled." ∈ (g.discard card).reasons := by
  simp only [Game.discard]
  split
  · exact drop_card_limit_end { g with hints := g.hints + 1 } card hperf hlim
  · exact drop_card_limit_end g card hperf hlim

theorem play_limit_end (g : Game) (card : Card) (hval : g.is_valid_play card = false)
    (hperf : g.perfection = true)
    (hlim : discardedGetD g card.color.peek card.number.peek + 1 =
      discardLimit card.number.peek) :
    ((g.play card).1).ended = true ∧
      "Hit discard limit with perfection enabled." ∈ ((g.play card).1).reasons := by
  simp only [Game.play]
  split
  · simp_all
  · split
    · exact drop_card_limit_end _ card hperf hlim
    · exact drop_card_limit_end _ card hperf hlim

theorem drop_card_reasons_of_not_perf (g : Game) (card : Card) (h : g.perfection = false) :
    (g.drop_card card).reasons = g.reasons := by
  simp only [Game.drop_card]
  split
  · next hcond => simp [h] at hcond
  · rfl

theorem discard_reasons_of_not_perf (g : Game) (card : Card) (h : g.perfection = false) :
    (g.discard card).reasons = g.reasons := by
  simp only [Game.discard]
  split <;> exact drop_card_reasons_of_not_perf _ card h

theorem play_reasons_of_not_perf (g : Game) (card : Card) (h : g.perfection = false) :
    ((g.play card).1).reasons = g.reasons ∨
    ((g.play card).1).reasons = g.reasons ++ ["Ran out of lives"] ∨
    ((g.play card).1).reasons = g.reasons ++ ["All colors completed"] := by
  simp only [Game.play]
  split
  · split
    · right
      right
      simp [Game.end_game]
    · left
      rfl
  · split
    · rw [drop_card_reasons_of_not_perf
          (Game.end_game { g with lives := usizeSub1 g.lives } "Ran out of lives") card h]
      right
      left
      simp [Game.end_game]
    · rw [drop_card_reasons_of_not_perf { g with lives := usizeSub1 g.lives } card h]
      left
      rfl

theorem discard_hints (g : Game) (card : Card) :
    (g.discard card).hints = if g.hints < g.max_hints then g.hints + 1 else g.hints := by
  simp only [Game.discard]
  rw [drop_card_hints]
  split <;> rfl

/-! ## Claim theorems -/

/-- Claim C1 (code_bug evidence): from a new game, playing red 1, 2, 3, 4, 5
in order (every play valid, no other color ever played) ends the game with
reason "All colors completed", because `play` checks
`played.values().all(|x| *x == 5)`, which only inspects the colors present
in the map — blue (and the other three colors) still has no entry.  The
claim (and the reason string itself) requires all five categories at rank 5
for this ending. -/
theorem claim_C1_code_behavior :
    (gPlayedRed4.play (Card.new Color.Red 5)).2 = true ∧
    (gPlayedRed4.play (Card.new Color.Red 5)).1.ended = true ∧
    (gPlayedRed4.play (Card.new Color.Red 5)).1.reasons = ["All colors completed"] ∧
    lookupA (gPlayedRed4.play (Card.new Color.Red 5)).1.played Color.Blue = none := by
  decide

/-- Claim C8 (code_bug evidence): the `p`/`d` commands guard with
`index > hand_size`, so the out-of-range index `5` on a five-card hand
(`hand_size = 5`, valid indices 0..4) passes the guard and
`VecDeque::remove(5).unwrap()` panics inside the Player operation; only
indices strictly greater than `hand_size` are rejected.  The claim says
every out-of-range index is rejected before the Player operation runs and
the command never panics. -/
theorem claim_C8_panics :
    play oneCardGame fivePlayers 0 5 = CmdResult.panicked ∧
    discard oneCardGame fivePlayers 0 5 = CmdResult.panicked ∧
    play oneCardGame fivePlayers 0 6 = CmdResult.rejected := by
  decide

/-- Claim C2: `Game::play(card)` returns true exactly when the card's rank
is 1 and its category has no played entry, or the rank equals the current
played rank plus one.  On success it increments `played[category]` by
exactly 1.  On failure it decrements lives by exactly 1, increments
`discarded[category][rank]` by exactly 1, leaves the hint tokens unchanged,
and when the decrement reaches 0 ends the game with "Ran out of lives".
The hypothesis `1 ≤ lives` restricts to states satisfying the lives
invariant (at `lives = 0`, reachable only after the game has already
ended, the unsigned subtraction wraps instead — see C10). -/
theorem claim_C2 (g : Game) (card : Card) (hl : 1 ≤ g.lives) :
    ((g.play card).2 = true ↔
      (match lookupA g.played card.color.peek with
        | none => card.number.peek = 1
        | some x => card.number.peek = x + 1)) ∧
    ((g.play card).2 = true →
      playedGetD (g.play card).1 card.color.peek = playedGetD g card.color.peek + 1) ∧
    ((g.play card).2 = false →
      ((g.play card).1.lives = g.lives - 1 ∧
        discardedGetD (g.play card).1 card.color.peek card.number.peek =
          discardedGetD g card.color.peek card.number.peek + 1 ∧
        (g.play card).1.hints = g.hints ∧
        (g.lives = 1 →
          (g.play card).1.ended = true ∧ "Ran out of lives" ∈ (g.play card).1.reasons))) := by
  have hsnd := play_snd g card
  refine ⟨?_, ?_, ?_⟩
  · rw [hsnd]
    unfold Game.is_valid_play
    cases hcl : lookupA g.played card.color.peek <;> simp [hcl]
  · intro ht
    rw [hsnd] at ht
    exact playedGetD_play_success g card ht
  · intro hf
    rw [hsnd] at hf
    refine ⟨?_, play_failure_discarded_count g card hf, play_hints g card, ?_⟩
    · rw [play_failure_lives g card hf, usizeSub1_eq g.lives hl]
    · intro h1
      apply play_failure_end g card hf
      rw [usizeSub1_eq g.lives hl, h1]

/-- Witness for C2: a fresh game (3 lives) and a red 1, a valid first play. -/
theorem claim_C2_witness :
    (((Game.new [] false).play (Card.new Color.Red 1)).2 = true ↔
      (match lookupA (Game.new [] false).played (Card.new Color.Red 1).color.peek with
        | none => (Card.new Color.Red 1).number.peek = 1
        | some x => (Card.new Color.Red 1).number.peek = x + 1)) ∧
    (((Game.new [] false).play (Card.new Color.Red 1)).2 = true →
      playedGetD ((Game.new [] false).play (Card.new Color.Red 1)).1
          (Card.new Color.Red 1).color.peek =
        playedGetD (Game.new [] false) (Card.new Color.Red 1).color.peek + 1) ∧
    (((Game.new [] false).play (Card.new Color.Red 1)).2 = false →
      (((Game.new [] false).play (Card.new Color.Red 1)).1.lives = (Game.new [] false).lives - 1 ∧
        discardedGetD ((Game.new [] false).play (Card.new Color.Red 1)).1
            (Card.new Color.Red 1).color.peek (Card.new Color.Red 1).number.peek =
          discardedGetD (Game.new [] false) (Card.new Color.Red 1).color.peek
              (Card.new Color.Red 1).number.peek + 1 ∧
        ((Game.new [] false).play (Card.new Color.Red 1)).1.hints = (Game.new [] false).hints ∧
        ((Game.new [] false).lives = 1 →
          ((Game.new [] false).play (Card.new Color.Red 1)).1.ended = true ∧
            "Ran out of lives" ∈ ((Game.new [] false).play (Card.new Color.Red 1)).1.reasons))) :=
  claim_C2 (Game.new [] false) (Card.new Color.Red 1) (by decide)

/-- Claim C3 counterexample: a player holding one red 1 with an empty deck.
The claim says `Player::play`/`Player::discard` complete without a panic
and the hand permanently shrinks; in the code the replacement draw is
unconditional, and with the deck empty `pop().unwrap()` panics (modelled as
`none`), so neither operation completes. -/
theorem claim_C3_counterexample :
    Player.play ⟨[Card.new Color.Red 1], 1⟩ 0 (Game.new [] false) = none ∧
    Player.discard ⟨[Card.new Color.Red 1], 1⟩ 0 (Game.new [] false) = none := by
  decide

/-- Claim C3 amended: with an in-range index the removed card is handed to
the Game operation, but a replacement draw is then attempted
unconditionally; when the deck is empty the draw fails its unwrap (a
panic), so the operation does not complete and the hand does not gracefully
shrink. -/
theorem claim_C3_amended (p : Player) (i : Nat) (g : Game)
    (hin : i < p.hand.length) (hdeck : g.deck.cards = []) :
    Player.play p i g = none ∧ Player.discard p i g = none := by
  obtain ⟨c, rest, hc⟩ := removeAt_isSome p.hand i hin
  constructor
  · simp only [Player.play, hc]
    exact draw_none _ _ (by rw [play_deck]; exact hdeck)
  · simp only [Player.discard, hc]
    exact draw_none _ _ (by rw [discard_deck]; exact hdeck)

/-- Witness for the amended C3: a two-card hand, index 1, empty deck. -/
theorem claim_C3_amended_witness :
    Player.play ⟨[Card.new Color.Blue 2, Card.new Color.Green 3], 2⟩ 1 (Game.new [] true) = none ∧
    Player.discard ⟨[Card.new Color.Blue 2, Card.new Color.Green 3], 2⟩ 1 (Game.new [] true) =
      none :=
  claim_C3_amended ⟨[Card.new Color.Blue 2, Card.new Color.Green 3], 2⟩ 1 (Game.new [] true)
    (by decide) (by decide)

/-- Claim C4 counterexample: after 49 draws from a newly built deck (the
shuffle only permutes `standardCards`, and length and the depleted flag do
not depend on the order), exactly one card remains and `is_empty` is still
false.  The claim says the flag is true exactly when one card remains. -/
theorem claim_C4_counterexample :
    (drawN (Deck.fromCards Deck.standardCards) 49).map (fun d => (d.cards.length, d.is_empty)) =
      some (1, false) := by
  decide

/-- Claim C4 amended: for a fresh deck over any card list, after `k ≤ length`
draws, `cards.length` has dropped by `k`, and the `depleted` flag --- which
`is_empty` reports --- is true exactly when the deck has been drawn down to
zero cards (the flag is set while drawing the last card, not the
second-to-last). -/
theorem claim_C4_amended (cs : List Card) (k : Nat) (hk : k ≤ cs.length) :
    ∃ d, drawN (Deck.fromCards cs) k = some d ∧ d.cards.length = cs.length - k ∧
      (d.is_empty = true ↔ (k = cs.length ∧ 1 ≤ cs.length)) := by
  obtain ⟨d, hd, h1, h2⟩ := drawN_fresh k cs false hk
  refine ⟨d, hd, h1, ?_⟩
  unfold Deck.is_empty
  rw [h2]
  constructor
  · rintro (hfalse | ⟨a, b⟩)
    · exact absurd hfalse (by simp)
    · exact ⟨by omega, a⟩
  · rintro ⟨a, b⟩
    exact Or.inr ⟨b, by omega⟩

/-- Witness for the amended C4: drawing both cards of a two-card deck. -/
theorem claim_C4_amended_witness :
    ∃ d,
      drawN (Deck.fromCards [Card.new Color.Red 1, Card.new Color.Blue 2]) 2 = some d ∧
      d.cards.length = [Card.new Color.Red 1, Card.new Color.Blue 2].length - 2 ∧
      (d.is_empty = true ↔
        (2 = [Card.new Color.Red 1, Card.new Color.Blue 2].length ∧
          1 ≤ [Card.new Color.Red 1, Card.new Color.Blue 2].length)) :=
  claim_C4_amended [Card.new Color.Red 1, Card.new Color.Blue 2] 2 (by decide)

/-- Claim C9: a fresh Hidden Value yields absence from `get`; `reveal_if`
with an equal candidate makes `get` return the original wrapped value;
`reveal_if` with a non-equal candidate is a complete no-op; and no operation
ever changes the wrapped value. -/
theorem claim_C9 {T : Type} [DecidableEq T] (v w w2 : T) (s s2 : Secret T)
    (hEq : s.value = w) (hNe : s2.value ≠ w2) :
    (Secret.new v).get = none ∧
    (s.reveal_if w).get = some s.value ∧
    s2.reveal_if w2 = s2 ∧
    (s.reveal_if w).value = s.value ∧
    (s2.reveal_if w2).value = s2.value ∧
    s.reveal.value = s.value := by
  refine ⟨rfl, ?_, ?_, ?_, ?_, rfl⟩
  · simp [Secret.reveal_if, hEq, Secret.reveal, Secret.get]
  · simp [Secret.reveal_if, hNe]
  · unfold Secret.reveal_if Secret.reveal
    split <;> rfl
  · unfold Secret.reveal_if Secret.reveal
    split <;> rfl

/-- Witness for C9 at concrete natural-number secrets. -/
theorem claim_C9_witness :
    (Secret.new (1 : Nat)).get = none ∧
    ((⟨5, false⟩ : Secret Nat).reveal_if 5).get = some (⟨5, false⟩ : Secret Nat).value ∧
    (⟨7, true⟩ : Secret Nat).reveal_if 3 = ⟨7, true⟩ ∧
    ((⟨5, false⟩ : Secret Nat).reveal_if 5).value = (⟨5, false⟩ : Secret Nat).value ∧
    ((⟨7, true⟩ : Secret Nat).reveal_if 3).value = (⟨7, true⟩ : Secret Nat).value ∧
    (⟨5, false⟩ : Secret Nat).reveal.value = (⟨5, false⟩ : Secret Nat).value :=
  claim_C9 1 5 3 ⟨5, false⟩ ⟨7, true⟩ rfl (by decide)

/-- Claim C5: hint tokens start at 7 (with `max_hints` 7) and stay in
`[0, 7]`: the hint command is refused with nothing touched at 0 tokens, a
successful hint consumes exactly one token, `Game::discard` refunds exactly
one token unless the pool is full (in which case it is unchanged), and
`Game::play` never changes the pool. -/
theorem claim_C5
    (cs : List Card) (pf : Bool)
    (g0 : Game) (ps0 : List (Nat × Player)) (t0 : Nat) (v0 : HintValue)
    (h0 : g0.hints = 0)
    (g1 g1' : Game) (ps1 ps1' : List (Nat × Player)) (t1 : Nat) (v1 : HintValue)
    (hs : hint g1 ps1 t1 v1 = some (g1', ps1')) (hb1 : g1.hints ≤ 7)
    (g2 : Game) (c2 : Card) (hm2 : g2.max_hints = 7) (hb2 : g2.hints ≤ 7) :
    (Game.new cs pf).hints = 7 ∧
    (Game.new cs pf).max_hints = 7 ∧
    hint g0 ps0 t0 v0 = none ∧
    g1'.hints + 1 = g1.hints ∧
    (g2.hints ≠ 7 → (g2.discard c2).hints = g2.hints + 1) ∧
    (g2.hints = 7 → (g2.discard c2).hints = g2.hints) ∧
    (g2.play c2).1.hints = g2.hints ∧
    (g2.discard c2).hints ≤ 7 ∧
    g1'.hints ≤ 7 := by
  have hdec : g1'.hints + 1 = g1.hints := by
    unfold hint at hs
    by_cases hz : g1.hints = 0
    · simp [hz] at hs
    · have hzb : (g1.hints == 0) = false := by simp [hz]
      rw [hzb] at hs
      simp only [Bool.false_eq_true, if_false] at hs
      cases hp : lookupA ps1 t1 with
      | none =>
        rw [hp] at hs
        simp at hs
      | some p =>
        rw [hp] at hs
        simp only [Option.some.injEq, Prod.mk.injEq] at hs
        obtain ⟨hg, _⟩ := hs
        rw [← hg]
        show g1.hints - 1 + 1 = g1.hints
        omega
  have hd := discard_hints g2 c2
  rw [hm2] at hd
  refine ⟨rfl, rfl, ?_, hdec, ?_, ?_, play_hints g2 c2, ?_, by omega⟩
  · unfold hint
    simp [h0]
  · intro h7
    rw [hd, if_pos (show g2.hints < 7 by omega)]
  · intro h7
    rw [hd, if_neg (show ¬g2.hints < 7 by omega)]
  · rw [hd]
    split <;> omega

/-- Witness for C5: a refused hint at 0 tokens, a successful number hint on
a one-card hand, and a discard/play at the full pool of 7. -/
theorem claim_C5_witness :
    (Game.new [] false).hints = 7 ∧
    (Game.new [] false).max_hints = 7 ∧
    hint { Game.new [] false with hints := 0 } [] 0 (HintValue.number 1) = none ∧
    ({ Game.new [] false with hints := 6 } : Game).hints + 1 = (Game.new [] false).hints ∧
    ((Game.new [] false).hints ≠ 7 →
      ((Game.new [] false).discard (Card.new Color.Blue 3)).hints = (Game.new [] false).hints + 1) ∧
    ((Game.new [] false).hints = 7 →
      ((Game.new [] false).discard (Card.new Color.Blue 3)).hints = (Game.new [] false).hints) ∧
    ((Game.new [] false).play (Card.new Color.Blue 3)).1.hints = (Game.new [] false).hints ∧
    ((Game.new [] false).discard (Card.new Color.Blue 3)).hints ≤ 7 ∧
    ({ Game.new [] false with hints := 6 } : Game).hints ≤ 7 :=
  claim_C5 [] false { Game.new [] false with hints := 0 } [] 0 (HintValue.number 1) rfl
    (Game.new [] false) { Game.new [] false with hints := 6 }
    [(0, ⟨[Card.new Color.Red 1], 1⟩)]
    [(0, ⟨[⟨⟨1, true⟩, ⟨Color.Red, false⟩⟩], 1⟩)] 0 (HintValue.number 1)
    (by decide) (by decide)
    (Game.new [] false) (Card.new Color.Blue 3) rfl (by decide)

/-- Claim C6: when an increment of `discarded[category][rank]` (whether it
is reached through `Game::discard` or through a failed `Game::play`) brings
the count to exactly the discard limit, the game ends with the
perfection-limit reason exactly when perfection mode is enabled; with
perfection disabled, `drop_card`, `discard` and (failed or successful)
`play` never record that reason. -/
theorem claim_C6 (g : Game) (card : Card)
    (hlim : discardedGetD g card.color.peek card.number.peek + 1 =
      discardLimit card.number.peek)
    (g2 : Game) (card2 : Card) (h2 : g2.perfection = false)
    (hnot : "Hit discard limit with perfection enabled." ∉ g2.reasons) :
    (g.perfection = true →
      ((g.drop_card card).ended = true ∧
        "Hit discard limit with perfection enabled." ∈ (g.drop_card card).reasons ∧
        (g.discard card).ended = true ∧
        "Hit discard limit with perfection enabled." ∈ (g.discard card).reasons ∧
        (g.is_valid_play card = false →
          (g.play card).1.ended = true ∧
            "Hit discard limit with perfection enabled." ∈ (g.play card).1.reasons))) ∧
    (g.perfection = false → (g.drop_card card).reasons = g.reasons) ∧
    (g2.drop_card card2).reasons = g2.reasons ∧
    (g2.discard card2).reasons = g2.reasons ∧
    "Hit discard limit with perfection enabled." ∉ (g2.play card2).1.reasons := by
  refine ⟨?_, ?_, drop_card_reasons_of_not_perf g2 card2 h2,
    discard_reasons_of_not_perf g2 card2 h2, ?_⟩
  · intro hperf
    obtain ⟨e1, m1⟩ := drop_card_limit_end g card hperf hlim
    obtain ⟨e2, m2⟩ := discard_limit_end g card hperf hlim
    exact ⟨e1, m1, e2, m2, fun hval => play_limit_end g card hval hperf hlim⟩
  · intro hperf
    exact drop_card_reasons_of_not_perf g card hperf
  · rcases play_reasons_of_not_perf g2 card2 h2 with hr | hr | hr <;> rw [hr]
    · exact hnot
    · intro hmem
      rcases List.mem_append.mp hmem with hmem2 | hmem2
      · exact hnot hmem2
      · simp at hmem2
    · intro hmem
      rcases List.mem_append.mp hmem with hmem2 | hmem2
      · exact hnot hmem2
      · simp at hmem2

/-- Witness for C6: a red 5 (limit 1, so the first drop reaches the limit)
dropped in a perfection game, and the same card in a non-perfection game. -/
theorem claim_C6_witness :
    ((Game.new [] true).perfection = true →
      (((Game.new [] true).drop_card (Card.new Color.Red 5)).ended = true ∧
        "Hit discard limit with perfection enabled." ∈
          ((Game.new [] true).drop_card (Card.new Color.Red 5)).reasons ∧
        ((Game.new [] true).discard (Card.new Color.Red 5)).ended = true ∧
        "Hit discard limit with perfection enabled." ∈
          ((Game.new [] true).discard (Card.new Color.Red 5)).reasons ∧
        ((Game.new [] true).is_valid_play (Card.new Color.Red 5) = false →
          ((Game.new [] true).play (Card.new Color.Red 5)).1.ended = true ∧
            "Hit discard limit with perfection enabled." ∈
              ((Game.new [] true).play (Card.new Color.Red 5)).1.reasons))) ∧
    ((Game.new [] true).perfection = false →
      ((Game.new [] true).drop_card (Card.new Color.Red 5)).reasons =
        (Game.new [] true).reasons) ∧
    ((Game.new [] false).drop_card (Card.new Color.Red 5)).reasons =
      (Game.new [] false).reasons ∧
    ((Game.new [] false).discard (Card.new Color.Red 5)).reasons =
      (Game.new [] false).reasons ∧
    "Hit discard limit with perfection enabled." ∉
      ((Game.new [] false).play (Card.new Color.Red 5)).1.reasons :=
  claim_C6 (Game.new [] true) (Card.new Color.Red 5) (by decide)
    (Game.new [] false) (Card.new Color.Red 5) (by decide) (by decide)

/-- Claim C7 counterexample: with red played up to 3 (reachable by playing
red 1, 2, 3 from a new game), `check_dangerous(Red, 3, 1)` returns true
(the code only rules out `played > rank`), while the claim's condition
`played < rank` is false at `played = rank = 3`, so the claim says false. -/
theorem claim_C7_counterexample :
    Game.check_dangerous gPlayedRed3 Color.Red 3 1 = true ∧
    dangerousSpec (playedGetD gPlayedRed3 Color.Red) 3 1 = false ∧
    playedGetD gPlayedRed3 Color.Red = 3 := by
  decide

/-- Claim C7 amended: for ranks 1..5, `check_dangerous(category, rank,
count)` returns true iff the category has not been played strictly beyond
the rank (played at most the rank, with absent entries read as 0) and
`count + 1 >= discard_limits[category][rank]`. -/
theorem claim_C7_amended (g : Game) (c : Color) (n cnt : Nat) (h1 : 1 ≤ n) (h5 : n ≤ 5) :
    (g.check_dangerous c n cnt = true ↔
      (playedGetD g c ≤ n ∧ discardLimit n ≤ cnt + 1)) := by
  unfold Game.check_dangerous
  split
  · next hgt =>
    simp only [Bool.false_eq_true, false_iff]
    rintro ⟨a, _⟩
    omega
  · next hle =>
    split
    · next hlt =>
      simp only [Bool.false_eq_true, false_iff]
      rintro ⟨_, b⟩
      omega
    · next hge =>
      simp only [true_iff]
      exact ⟨by omega, by omega⟩

/-- Witness for the amended C7: a fresh game, red rank 1, count 0. -/
theorem claim_C7_amended_witness :
    (Game.new [] false).check_dangerous Color.Red 1 0 = true ↔
      (playedGetD (Game.new [] false) Color.Red ≤ 1 ∧ discardLimit 1 ≤ 0 + 1) :=
  claim_C7_amended (Game.new [] false) Color.Red 1 0 (by decide) (by decide)

/-- Claim C10: no Game operation guards on the `ended` flag.  On a game
whose `ended` flag is already true, a valid play still advances the played
map, a discard still increments the discard count and (below the cap) the
hint pool, the hint command still consumes a token, and a failed play with
`lives` already 0 wraps the unsigned lives counter to `2^64 - 1` (the
underflow; a debug build panics at the same point).  The final conjunct
runs one driver round in which player 0 quits --- setting `ended` --- and
player 1's discard of a red 1 is still executed, as `main`'s `for` loop
never consults `ended` between the players of a round. -/
theorem claim_C10 (g : Game) (cv ci cd : Card) (players : List (Nat × Player)) (t : Nat)
    (v : HintValue) (p : Player)
    (hEnd : g.ended = true)
    (hv : g.is_valid_play cv = true)
    (hi : g.is_valid_play ci = false)
    (hl0 : g.lives = 0)
    (hp : lookupA players t = some p)
    (hh : g.hints ≠ 0) :
    playedGetD (g.play cv).1 cv.color.peek = playedGetD g cv.color.peek + 1 ∧
    discardedGetD (g.discard cd) cd.color.peek cd.number.peek =
      discardedGetD g cd.color.peek cd.number.peek + 1 ∧
    (g.hints < g.max_hints → (g.discard cd).hints = g.hints + 1) ∧
    (hint g players t v).map (fun x => x.1.hints) = some (g.hints - 1) ∧
    (g.play ci).1.lives = 18446744073709551615 ∧
    (runRound demoRoundState demoRoundCmds).map
        (fun st => (st.game.ended, discardedGetD st.game Color.Red 1)) = some (true, 1) := by
  refine ⟨playedGetD_play_success g cv hv, ?_, ?_, ?_, ?_, by decide⟩
  · simp only [Game.discard]
    split
    · exact drop_card_count_of g { g with hints := g.hints + 1 } cd rfl
    · exact drop_card_count_of g g cd rfl
  · intro hlt
    rw [discard_hints g cd, if_pos hlt]
  · unfold hint
    simp [hh, hp]
  · rw [play_failure_lives g ci hi, hl0]
    rfl

/-- Witness for C10: an already-ended game with 0 lives, a valid red 1, an
invalid red 5, a blue 3 to discard, and a hint to an empty-handed player. -/
theorem claim_C10_witness :
    playedGetD (({ Game.new [] false with ended := true, lives := 0 } : Game).play
          (Card.new Color.Red 1)).1 (Card.new Color.Red 1).color.peek =
      playedGetD { Game.new [] false with ended := true, lives := 0 }
        (Card.new Color.Red 1).color.peek + 1 ∧
    discardedGetD (({ Game.new [] false with ended := true, lives := 0 } : Game).discard
          (Card.new Color.Blue 3)) (Card.new Color.Blue 3).color.peek
        (Card.new Color.Blue 3).number.peek =
      discardedGetD { Game.new [] false with ended := true, lives := 0 }
        (Card.new Color.Blue 3).color.peek (Card.new Color.Blue 3).number.peek + 1 ∧
    (({ Game.new [] false with ended := true, lives := 0 } : Game).hints <
        ({ Game.new [] false with ended := true, lives := 0 } : Game).max_hints →
      (({ Game.new [] false with ended := true, lives := 0 } : Game).discard
          (Card.new Color.Blue 3)).hints =
        ({ Game.new [] false with ended := true, lives := 0 } : Game).hints + 1) ∧
    (hint { Game.new [] false with ended := true, lives := 0 } [(0, ⟨[], 1⟩)] 0
          (HintValue.color Color.Green)).map (fun x => x.1.hints) =
      some (({ Game.new [] false with ended := true, lives := 0 } : Game).hints - 1) ∧
    (({ Game.new [] false with ended := true, lives := 0 } : Game).play
        (Card.new Color.Red 5)).1.lives = 18446744073709551615 ∧
    (runRound demoRoundState demoRoundCmds).map
        (fun st => (st.game.ended, discardedGetD st.game Color.Red 1)) = some (true, 1) :=
  claim_C10 { Game.new [] false with ended := true, lives := 0 } (Card.new Color.Red 1)
    (Card.new Color.Red 5) (Card.new Color.Blue 3) [(0, ⟨[], 1⟩)] 0
    (HintValue.color Color.Green) ⟨[], 1⟩ rfl (by decide) (by decide) rfl rfl (by decide)
